import Mathlib

/-!
# Verification of `src/script.js` (shopping-cart and feedback-form helper)

Shallow embedding of the browser-side script. Modelling conventions:

* JavaScript strings are Lean `String`s; where character-level reasoning is
  needed (email validation, feedback form) the trimmed field values are
  `List Char`.
* JavaScript numbers (item prices) are modelled as rationals `Rat`;
  `Number.prototype.toFixed(2)` is modelled by `toFixed2`.
* A web-storage object (`sessionStorage` / `localStorage` / the in-memory
  fallback) is an association list `List (String × String)` in insertion
  order, matching JS object/storage key iteration order.
* The cart layer always reads and writes the single session key
  `cartItems`, whose value is the JSON-encoded cart.  `JSON.stringify` /
  `JSON.parse` are inverse bijections on the record shapes used here, so the
  cart layer is modelled directly on the slot's decoded content:
  `Option Cart`, where `none` means the key is absent from the session store.
* A JS storage operation that throws is an `Except.error`.
-/

/-- A cart entry `{name, price, quantity}` (script.js lines 167-171). -/
structure CartItem where
  name : String
  price : ℚ
  quantity : ℕ
  deriving DecidableEq, Repr

/-- The cart object: a mapping from item id to `CartItem`, in insertion
order (JS object semantics). -/
abbrev Cart : Type := List (String × CartItem)

/-- JS property lookup `cartItems[itemId]` on the cart object. -/
def cartLookup : Cart → String → Option CartItem
  | [], _ => none
  | (k, it) :: rest, id => if k = id then some it else cartLookup rest id

/-- JS in-place update `cartItems[itemId].quantity += 1`
(script.js line 165): bump the quantity of the entry stored under `id`. -/
def bumpQty : Cart → String → Cart
  | [], _ => []
  | (k, it) :: rest, id =>
      if k = id then (k, { it with quantity := it.quantity + 1 }) :: rest
      else (k, it) :: bumpQty rest id

/-- JS property insertion `cartItems[itemId] = {name, price, quantity: 1}`
(script.js lines 167-171) for an id not yet present: appended in insertion
order. -/
def insertNew (c : Cart) (id nm : String) (pr : ℚ) : Cart :=
  c ++ [(id, ⟨nm, pr, 1⟩)]

/-- `getCartFromSession` (script.js lines 105-108): read key `cartItems`;
an absent key yields the empty object `{}`. -/
def getCartFromSession : Option Cart → Cart
  | none => []
  | some c => c

/-- `saveCartToSession` (script.js lines 101-103): store the cart under the
`cartItems` key. -/
def saveCartToSession (c : Cart) (_st : Option Cart) : Option Cart := some c

/-- `clearCartFromSession` (script.js lines 110-112):
`removeSessionItem('cartItems')` — the key is removed entirely. -/
def clearCartFromSession (_st : Option Cart) : Option Cart := none

/-- The add-to-cart click handler (script.js lines 154-178): read the cart,
increment the quantity if the id is present (`if (cartItems[itemId])`), else
insert a new entry with quantity 1, and write the cart back. -/
def addItem (id nm : String) (pr : ℚ) (st : Option Cart) : Option Cart :=
  let cartItems := getCartFromSession st
  let cartItems' :=
    if (cartLookup cartItems id).isSome then bumpQty cartItems id
    else insertNew cartItems id nm pr
  saveCartToSession cartItems' st

/-- `toFixed(2)` on a rational: round to the nearest cent and print with two
decimal digits. -/
def toFixed2 (q : ℚ) : String :=
  let cents : ℤ := round (q * 100)
  let sign : String := if cents < 0 then "-" else ""
  let a : ℕ := cents.natAbs
  let frac : ℕ := a % 100
  sign ++ toString (a / 100) ++ "." ++
    (if frac < 10 then "0" ++ toString frac else toString frac)

/-- What the view-cart handler shows: the empty-cart indicator, or the
per-item display lines together with the formatted grand total. -/
inductive ViewResult where
  | empty
  | contents (lines : List String) (total : String)
  deriving DecidableEq, Repr

/-- One per-item display string (script.js line 201):
`name (xquantity) - $itemTotal` with `itemTotal = price * quantity`. -/
def itemLine (it : CartItem) : String :=
  it.name ++ " (x" ++ toString it.quantity ++ ") - $" ++
    toFixed2 (it.price * it.quantity)

/-- The view-cart click handler (script.js lines 187-213): if the cart has
no keys, show `Your cart is empty`; else map each entry to its display
string, accumulating `totalPrice`, and show the lines plus the total. -/
def viewCart (st : Option Cart) : ViewResult :=
  let cartItems := getCartFromSession st
  if cartItems.length = 0 then .empty
  else
    let totalPrice : ℚ :=
      cartItems.foldl (fun acc e => acc + e.2.price * e.2.quantity) 0
    .contents (cartItems.map fun e => itemLine e.2) (toFixed2 totalPrice)

/-- The clear-cart click handler (script.js lines 216-229): with no keys,
alert `No items to clear` and leave the store alone; else remove the
`cartItems` key and alert `Cart has been cleared!`. -/
def clearCart (st : Option Cart) : String × Option Cart :=
  let cartItems := getCartFromSession st
  if cartItems.length = 0 then ("No items to clear", st)
  else ("Cart has been cleared!", clearCartFromSession st)

/-- The process-order click handler (script.js lines 232-252): with at least
one key, sum the quantities, alert the confirmation count, then remove the
`cartItems` key; else alert `No items in cart`. -/
def processOrder (st : Option Cart) : String × Option Cart :=
  let cartItems := getCartFromSession st
  if cartItems.length > 0 then
    let totalItems : ℕ := cartItems.foldl (fun acc e => acc + e.2.quantity) 0
    ("Order processed successfully! " ++ toString totalItems ++
       " item(s) ordered.", clearCartFromSession st)
  else ("No items in cart", st)

/-- The quantity stored for `id` in the session cart (0 when absent). -/
def quantityOf (st : Option Cart) (id : String) : ℕ :=
  match cartLookup (getCartFromSession st) id with
  | some it => it.quantity
  | none => 0

/-- A sequence of add-to-cart clicks for one id: each element gives the
`data-name` and `data-price` attributes of the clicked button. -/
def runAdds (id : String) (args : List (String × ℚ)) (st : Option Cart) :
    Option Cart :=
  args.foldl (fun s a => addItem id a.1 a.2 s) st

/-- One user cart action on the gallery page. -/
inductive CartOp where
  | add (id nm : String) (pr : ℚ)
  | clear
  | order
  deriving DecidableEq, Repr

/-- The state change a cart action causes on the `cartItems` slot. -/
def cartStep (st : Option Cart) : CartOp → Option Cart
  | .add id nm pr => addItem id nm pr st
  | .clear => (clearCart st).2
  | .order => (processOrder st).2

/-- Run a sequence of cart actions starting from an empty session store. -/
def runCartOps (ops : List CartOp) : Option Cart :=
  ops.foldl cartStep none

/-- Every entry of the cart has quantity at least 1. -/
def cartQtyInv (c : Cart) : Prop := ∀ e ∈ c, 1 ≤ e.2.quantity

/-- JS `String.prototype.split(sep)` for a one-character separator, on the
character list of the string: `"a@b".split('@') = ["a","b"]`,
`"".split('@') = [""]`, `"@".split('@') = ["", ""]`. -/
def jsSplit (c : Char) : List Char → List (List Char)
  | [] => [[]]
  | x :: xs =>
      if x = c then [] :: jsSplit c xs
      else
        match jsSplit c xs with
        | [] => [[x]]
        | p :: ps => (x :: p) :: ps

/-- The newsletter submit handler's email validation (script.js lines
128-142), on the trimmed email: reject the empty string, reject a string
without `@`, then reject unless `split('@')` has exactly two parts, both
non-empty; otherwise accept. -/
def newsletterEmailAccept (email : List Char) : Bool :=
  if email = [] then false
  else if '@' ∉ email then false
  else
    let emailParts := jsSplit '@' email
    if emailParts.length ≠ 2 ∨ emailParts.getD 0 [] = []
        ∨ emailParts.getD 1 [] = [] then false
    else true

/-- The feedback submit handler's email validation (script.js lines
289-303): the same three checks as the newsletter handler. -/
def feedbackEmailAccept (email : List Char) : Bool :=
  if email = [] then false
  else if '@' ∉ email then false
  else
    let emailParts := jsSplit '@' email
    if emailParts.length ≠ 2 ∨ emailParts.getD 0 [] = []
        ∨ emailParts.getD 1 [] = [] then false
    else true

/-- The `customerData` record (script.js lines 310-316); `timestamp` models
`new Date().toISOString()`, supplied by the environment. -/
structure CustomerProfile where
  name : List Char
  email : List Char
  phone : List Char
  lastMessage : List Char
  timestamp : String
  deriving DecidableEq, Repr

/-- `saveCustomerToLocal` (script.js lines 114-116): overwrite the single
`customerData` record in the durable store, unconditionally. -/
def saveCustomerToLocal (customerData : CustomerProfile)
    (_st : Option CustomerProfile) : Option CustomerProfile :=
  some customerData

/-- The feedback submit handler (script.js lines 276-328) on the trimmed
field values: the five validation checks in source order, each aborting
with its alert message, then the write of the profile record and the
confirmation message. -/
def feedbackSubmit (nm email phone message : List Char) (ts : String)
    (st : Option CustomerProfile) : String × Option CustomerProfile :=
  if nm = [] then ("Please enter your name.", st)
  else if email = [] then ("Please enter your email address.", st)
  else if '@' ∉ email then
    ("Please include a \"@\" in the email address.", st)
  else if (jsSplit '@' email).length ≠ 2 ∨ (jsSplit '@' email).getD 0 [] = []
      ∨ (jsSplit '@' email).getD 1 [] = [] then
    ("Please enter a valid email address.", st)
  else if message = [] then
    ("Please enter your issue/order information.", st)
  else
    ("Thank you for your message, " ++ String.mk nm ++
       "! We will get back to you soon.",
     saveCustomerToLocal ⟨nm, email, phone, message, ts⟩ st)

/-- The feedback form's validation rules in the source's order: each pairs
a failure test on (name, email, message) with its user-facing message. -/
def feedbackRules :
    List ((List Char × List Char × List Char → Bool) × String) :=
  [(fun i => decide (i.1 = []), "Please enter your name."),
   (fun i => decide (i.2.1 = []), "Please enter your email address."),
   (fun i => decide ('@' ∉ i.2.1),
     "Please include a \"@\" in the email address."),
   (fun i => decide ((jsSplit '@' i.2.1).length ≠ 2
       ∨ (jsSplit '@' i.2.1).getD 0 [] = []
       ∨ (jsSplit '@' i.2.1).getD 1 [] = []),
     "Please enter a valid email address."),
   (fun i => decide (i.2.2 = []), "Please enter your issue/order information.")]

/-- The message of the first failing rule, if any rule fails. -/
def firstFailingMsg (i : List Char × List Char × List Char) : Option String :=
  (feedbackRules.find? fun r => r.1 i).map fun r => r.2

/-- `storage.setItem(k, v)` data change: overwrite or append. -/
def kvSet : List (String × String) → String → String → List (String × String)
  | [], k, v => [(k, v)]
  | (k', v') :: rest, k, v =>
      if k' = k then (k, v) :: rest else (k', v') :: kvSet rest k v

/-- `storage.getItem(k)` (`null` when absent, as `none`). -/
def kvGet : List (String × String) → String → Option String
  | [], _ => none
  | (k', v') :: rest, k => if k' = k then some v' else kvGet rest k

/-- `storage.removeItem(k)` data change. -/
def kvRemove : List (String × String) → String → List (String × String)
  | [], _ => []
  | (k', v') :: rest, k => if k' = k then rest else (k', v') :: kvRemove rest k

/-- The host browser's real storage API (external collaborator): every
operation throws when the environment has the store blocked
(`works = false`), and succeeds otherwise. -/
def rawSetItem (works : Bool) (data : List (String × String)) (k v : String) :
    Except String (List (String × String)) :=
  if works then .ok (kvSet data k v) else .error "SecurityError"

def rawGetItem (works : Bool) (data : List (String × String)) (k : String) :
    Except String (Option String) :=
  if works then .ok (kvGet data k) else .error "SecurityError"

def rawRemoveItem (works : Bool) (data : List (String × String)) (k : String) :
    Except String (List (String × String)) :=
  if works then .ok (kvRemove data k) else .error "SecurityError"

def rawClear (works : Bool) (_data : List (String × String)) :
    Except String (List (String × String)) :=
  if works then .ok [] else .error "SecurityError"

/-- `isStorageAvailable(type)` (script.js lines 3-13): try a trivial
write+delete against the real store; any throw is caught and yields
`false`. Returns the probe verdict and the store's data afterwards. -/
def isStorageAvailable (works : Bool) (data : List (String × String)) :
    Bool × List (String × String) :=
  match rawSetItem works data "__storage_test__" "1" with
  | .error _ => (false, data)
  | .ok d1 =>
      match rawRemoveItem works d1 "__storage_test__" with
      | .error _ => (false, d1)
      | .ok d2 => (true, d2)

/-- The adapter's whole state: the two environment capabilities, the two
probe verdicts fixed at startup (`useSession`/`useLocal`, script.js lines
28-29), the two real stores' data, and the fallback object's two in-memory
maps (script.js lines 16-26). -/
structure AdapterState where
  sessionWorks : Bool
  localWorks : Bool
  useSession : Bool
  useLocal : Bool
  realSession : List (String × String)
  realLocal : List (String × String)
  fbSession : List (String × String)
  fbLocal : List (String × String)
  deriving DecidableEq, Repr

/-- The adapter IIFE at startup (script.js lines 2-46): probe each scope
exactly once; the verdicts are fixed for the rest of the process. -/
def initAdapter (sessionWorks localWorks : Bool) : AdapterState :=
  let ps := isStorageAvailable sessionWorks []
  let pl := isStorageAvailable localWorks []
  ⟨sessionWorks, localWorks, ps.1, pl.1, ps.2, pl.2, [], []⟩

/-- `cartStorage.setSessionItem` (script.js line 34). -/
def setSessionItem (st : AdapterState) (k v : String) :
    Except String (Option String × AdapterState) :=
  if st.useSession then
    (rawSetItem st.sessionWorks st.realSession k v).map
      fun d => (none, { st with realSession := d })
  else .ok (none, { st with fbSession := kvSet st.fbSession k v })

/-- `cartStorage.getSessionItem` (script.js line 35). -/
def getSessionItem (st : AdapterState) (k : String) :
    Except String (Option String × AdapterState) :=
  if st.useSession then
    (rawGetItem st.sessionWorks st.realSession k).map fun v => (v, st)
  else .ok (kvGet st.fbSession k, st)

/-- `cartStorage.removeSessionItem` (script.js line 36). -/
def removeSessionItem (st : AdapterState) (k : String) :
    Except String (Option String × AdapterState) :=
  if st.useSession then
    (rawRemoveItem st.sessionWorks st.realSession k).map
      fun d => (none, { st with realSession := d })
  else .ok (none, { st with fbSession := kvRemove st.fbSession k })

/-- `cartStorage.clearSession` (script.js line 37). -/
def clearSession (st : AdapterState) :
    Except String (Option String × AdapterState) :=
  if st.useSession then
    (rawClear st.sessionWorks st.realSession).map
      fun d => (none, { st with realSession := d })
  else .ok (none, { st with fbSession := [] })

/-- `cartStorage.setLocalItem` (script.js line 40). -/
def setLocalItem (st : AdapterState) (k v : String) :
    Except String (Option String × AdapterState) :=
  if st.useLocal then
    (rawSetItem st.localWorks st.realLocal k v).map
      fun d => (none, { st with realLocal := d })
  else .ok (none, { st with fbLocal := kvSet st.fbLocal k v })

/-- `cartStorage.getLocalItem` (script.js line 41). -/
def getLocalItem (st : AdapterState) (k : String) :
    Except String (Option String × AdapterState) :=
  if st.useLocal then
    (rawGetItem st.localWorks st.realLocal k).map fun v => (v, st)
  else .ok (kvGet st.fbLocal k, st)

/-- `cartStorage.removeLocalItem` (script.js line 42). -/
def removeLocalItem (st : AdapterState) (k : String) :
    Except String (Option String × AdapterState) :=
  if st.useLocal then
    (rawRemoveItem st.localWorks st.realLocal k).map
      fun d => (none, { st with realLocal := d })
  else .ok (none, { st with fbLocal := kvRemove st.fbLocal k })

/-- One call to the adapter's public interface. -/
inductive AdOp where
  | setS (k v : String)
  | getS (k : String)
  | remS (k : String)
  | clrS
  | setL (k v : String)
  | getL (k : String)
  | remL (k : String)
  deriving DecidableEq, Repr

def adStep (st : AdapterState) : AdOp → Except String (Option String × AdapterState)
  | .setS k v => setSessionItem st k v
  | .getS k => getSessionItem st k
  | .remS k => removeSessionItem st k
  | .clrS => clearSession st
  | .setL k v => setLocalItem st k v
  | .getL k => getLocalItem st k
  | .remL k => removeLocalItem st k

/-- Run a sequence of adapter calls; an uncaught throw aborts the run. -/
def runAdapter : AdapterState → List AdOp → Except String AdapterState
  | st, [] => .ok st
  | st, op :: ops =>
      match adStep st op with
      | .error e => .error e
      | .ok (_, st') => runAdapter st' ops

/-- The probe verdicts agree with the environment capabilities. -/
def AdapterInv (st : AdapterState) : Prop :=
  st.useSession = st.sessionWorks ∧ st.useLocal = st.localWorks

theorem cartLookup_bumpQty_self (c : Cart) (id : String) :
    cartLookup (bumpQty c id) id =
      (cartLookup c id).map fun it => { it with quantity := it.quantity + 1 } := by
  induction c with
  | nil => rfl
  | cons e rest ih =>
      obtain ⟨k, it⟩ := e
      by_cases h : k = id <;> simp [bumpQty, cartLookup, h, ih]

theorem cartLookup_bumpQty_other (c : Cart) (id k : String) (h : k ≠ id) :
    cartLookup (bumpQty c id) k = cartLookup c k := by
  induction c with
  | nil => rfl
  | cons e rest ih =>
      obtain ⟨k', it⟩ := e
      by_cases h' : k' = id
      · subst h'
        simp [bumpQty, cartLookup, Ne.symm h]
      · by_cases h'' : k' = k <;> simp [bumpQty, cartLookup, h', h'', h, ih]

theorem cartLookup_insertNew_self (c : Cart) (id nm : String) (pr : ℚ)
    (h : cartLookup c id = none) :
    cartLookup (insertNew c id nm pr) id = some ⟨nm, pr, 1⟩ := by
  induction c with
  | nil => simp [insertNew, cartLookup]
  | cons e rest ih =>
      obtain ⟨k, it⟩ := e
      by_cases h' : k = id
      · simp [cartLookup, h'] at h
      · simp only [cartLookup, h', if_false] at h
        simpa [insertNew, cartLookup, h'] using ih h

theorem cartLookup_insertNew_other (c : Cart) (id nm : String) (pr : ℚ)
    (k : String) (h : k ≠ id) :
    cartLookup (insertNew c id nm pr) k = cartLookup c k := by
  induction c with
  | nil => simp [insertNew, cartLookup, Ne.symm h]
  | cons e rest ih =>
      obtain ⟨k', it⟩ := e
      by_cases h' : k' = k
      · simp [insertNew, cartLookup, h']
      · simp only [insertNew, cartLookup, h', if_false]
        simpa [insertNew] using ih

@[simp] theorem getCartFromSession_some (c : Cart) :
    getCartFromSession (some c) = c := rfl

theorem quantityOf_addItem (id nm : String) (pr : ℚ) (st : Option Cart) :
    quantityOf (addItem id nm pr st) id = quantityOf st id + 1 := by
  cases h : cartLookup (getCartFromSession st) id with
  | none =>
      simp [quantityOf, addItem, h, saveCartToSession,
        cartLookup_insertNew_self _ _ _ _ h]
  | some it =>
      simp [quantityOf, addItem, h, saveCartToSession,
        cartLookup_bumpQty_self]

theorem quantityOf_runAdds (id : String) (args : List (String × ℚ)) :
    ∀ st : Option Cart,
      quantityOf (runAdds id args st) id = quantityOf st id + args.length := by
  induction args with
  | nil => intro st; simp [runAdds]
  | cons a rest ih =>
      intro st
      have : runAdds id (a :: rest) st = runAdds id rest (addItem id a.1 a.2 st) := by
        simp [runAdds]
      rw [this, ih, quantityOf_addItem]
      simp only [List.length_cons]
      omega

@[simp] theorem getCartFromSession_none : getCartFromSession none = [] := rfl

theorem foldl_add_eq_sum {α M : Type*} [AddCommMonoid M] (f : α → M) :
    ∀ (l : List α) (a : M),
      l.foldl (fun acc x => acc + f x) a = a + (l.map f).sum := by
  intro l
  induction l with
  | nil => intro a; simp
  | cons x xs ih =>
      intro a
      simp [List.foldl_cons, ih, add_assoc]

theorem cartQtyInv_bumpQty (c : Cart) (id : String) (h : cartQtyInv c) :
    cartQtyInv (bumpQty c id) := by
  induction c with
  | nil => intro x hx; simp [bumpQty] at hx
  | cons e rest ih =>
      obtain ⟨k, it⟩ := e
      have hrest : cartQtyInv rest := fun x hx => h x (List.mem_cons_of_mem _ hx)
      intro x hx
      by_cases hk : k = id
      · simp only [bumpQty, if_pos hk] at hx
        rcases List.mem_cons.mp hx with rfl | hx'
        · simp
        · exact hrest x hx'
      · simp only [bumpQty, if_neg hk] at hx
        rcases List.mem_cons.mp hx with rfl | hx'
        · exact h (k, it) (List.mem_cons_self _ _)
        · exact ih hrest x hx'

theorem cartQtyInv_insertNew (c : Cart) (id nm : String) (pr : ℚ)
    (h : cartQtyInv c) : cartQtyInv (insertNew c id nm pr) := by
  intro x hx
  rcases List.mem_append.mp hx with hx' | hx'
  · exact h x hx'
  · simp at hx'
    subst hx'
    simp

theorem cartQtyInv_cartStep (st : Option Cart) (op : CartOp)
    (h : cartQtyInv (getCartFromSession st)) :
    cartQtyInv (getCartFromSession (cartStep st op)) := by
  cases op with
  | add id nm pr =>
      by_cases hl : (cartLookup (getCartFromSession st) id).isSome
      · simpa [cartStep, addItem, saveCartToSession, hl] using
          cartQtyInv_bumpQty _ id h
      · simpa [cartStep, addItem, saveCartToSession, hl] using
          cartQtyInv_insertNew _ id nm pr h
  | clear =>
      by_cases he : (getCartFromSession st).length = 0
      · simpa [cartStep, clearCart, he] using h
      · intro x hx
        simp [cartStep, clearCart, he, clearCartFromSession] at hx
  | order =>
      by_cases he : (getCartFromSession st).length > 0
      · intro x hx
        simp [cartStep, processOrder, he, clearCartFromSession] at hx
      · simpa [cartStep, processOrder, he] using h

theorem cartQtyInv_foldl (ops : List CartOp) :
    ∀ st : Option Cart, cartQtyInv (getCartFromSession st) →
      cartQtyInv (getCartFromSession (ops.foldl cartStep st)) := by
  induction ops with
  | nil => intro st h; simpa using h
  | cons op rest ih =>
      intro st h
      exact ih (cartStep st op) (cartQtyInv_cartStep st op h)

/-- Claim C2. -- Starting from an empty cart, any sequence of add-to-cart clicks
sharing one id leaves that id with quantity equal to the number of clicks
(each click increments by the default 1); an add of an absent id inserts
`{name, price, quantity: 1}`, an add of a present id increments its
quantity, and in both cases the updated cart is written back to the session
store (`addItem` returns `some` updated cart). -/
theorem addItem_sequence_spec :
    (∀ (id : String) (args : List (String × ℚ)),
        quantityOf (runAdds id args none) id = args.length
        ∧ (args ≠ [] →
            ∃ it, cartLookup (getCartFromSession (runAdds id args none)) id
                = some it ∧ it.quantity = args.length))
    ∧ (∀ (id nm : String) (pr : ℚ) (st : Option Cart),
        cartLookup (getCartFromSession st) id = none →
          addItem id nm pr st
              = some (insertNew (getCartFromSession st) id nm pr)
          ∧ cartLookup (getCartFromSession (addItem id nm pr st)) id
              = some ⟨nm, pr, 1⟩)
    ∧ (∀ (id nm : String) (pr : ℚ) (st : Option Cart) (it : CartItem),
        cartLookup (getCartFromSession st) id = some it →
          addItem id nm pr st = some (bumpQty (getCartFromSession st) id)
          ∧ cartLookup (getCartFromSession (addItem id nm pr st)) id
              = some { it with quantity := it.quantity + 1 }) := by
  refine ⟨fun id args => ?_, fun id nm pr st h => ?_, fun id nm pr st it h => ?_⟩
  · have hq : quantityOf (runAdds id args none) id = args.length := by
      have h0 : quantityOf none id = 0 := rfl
      have := quantityOf_runAdds id args none
      rw [h0] at this
      simpa using this
    refine ⟨hq, fun hne => ?_⟩
    cases hl : cartLookup (getCartFromSession (runAdds id args none)) id with
    | none =>
        exfalso
        have h0 : quantityOf (runAdds id args none) id = 0 := by
          simp [quantityOf, hl]
        rw [hq] at h0
        exact hne (List.length_eq_zero.mp h0)
    | some it =>
        refine ⟨it, rfl, ?_⟩
        have h1 : quantityOf (runAdds id args none) id = it.quantity := by
          simp [quantityOf, hl]
        rw [hq] at h1
        exact h1.symm
  · refine ⟨?_, ?_⟩
    · simp [addItem, h, saveCartToSession]
    · simp [addItem, h, saveCartToSession,
        cartLookup_insertNew_self _ _ _ _ h]
  · refine ⟨?_, ?_⟩
    · simp [addItem, h, saveCartToSession]
    · simp [addItem, h, saveCartToSession, cartLookup_bumpQty_self]

theorem addItem_sequence_spec_witness :
    quantityOf (runAdds "a" [("x", 2), ("x", 2)] none) "a" = 2
    ∧ cartLookup (getCartFromSession (addItem "a" "x" 2 none)) "a"
        = some ⟨"x", 2, 1⟩ :=
  ⟨(addItem_sequence_spec.1 "a" [("x", 2), ("x", 2)]).1,
    (addItem_sequence_spec.2.1 "a" "x" 2 none rfl).2⟩

/-- Claim C10. -- Adding an id already present in the cart ignores the name and
price arguments of the repeat click: the stored entry keeps its name and
price, only its quantity grows by 1, and entries under every other id are
unchanged. -/
theorem addItem_existing_frame (id nm' : String) (pr' : ℚ) (st : Option Cart)
    (it : CartItem) (h : cartLookup (getCartFromSession st) id = some it) :
    cartLookup (getCartFromSession (addItem id nm' pr' st)) id
        = some ⟨it.name, it.price, it.quantity + 1⟩
    ∧ ∀ k : String, k ≠ id →
        cartLookup (getCartFromSession (addItem id nm' pr' st)) k
          = cartLookup (getCartFromSession st) k := by
  constructor
  · simp [addItem, h, saveCartToSession, cartLookup_bumpQty_self]
  · intro k hk
    simp [addItem, h, saveCartToSession, cartLookup_bumpQty_other _ _ _ hk]

theorem addItem_existing_frame_witness :
    cartLookup (getCartFromSession (addItem "a" "z" 7
        (some [("a", ⟨"x", 2, 3⟩), ("b", ⟨"y", 5, 1⟩)]))) "a"
      = some ⟨"x", 2, 4⟩
    ∧ cartLookup (getCartFromSession (addItem "a" "z" 7
        (some [("a", ⟨"x", 2, 3⟩), ("b", ⟨"y", 5, 1⟩)]))) "b"
      = some ⟨"y", 5, 1⟩ := by
  have h := addItem_existing_frame "a" "z" 7
    (some [("a", ⟨"x", 2, 3⟩), ("b", ⟨"y", 5, 1⟩)]) ⟨"x", 2, 3⟩ (by decide)
  exact ⟨h.1, h.2 "b" (by decide)⟩

/-- Claim C9. -- In every cart state reachable from the empty cart by any
sequence of add/clear/process-order actions, every stored entry has
quantity at least 1 — no id with quantity 0 exists. -/
theorem cart_quantity_invariant (ops : List CartOp) (k : String)
    (it : CartItem) (h : (k, it) ∈ getCartFromSession (runCartOps ops)) :
    1 ≤ it.quantity := by
  have h0 : cartQtyInv (getCartFromSession (none : Option Cart)) := by
    intro x hx
    simp at hx
  have hinv : cartQtyInv (getCartFromSession (runCartOps ops)) := by
    simpa [runCartOps] using cartQtyInv_foldl ops none h0
  exact hinv (k, it) h

theorem cart_quantity_invariant_witness :
    ("a", (⟨"x", 2, 1⟩ : CartItem))
        ∈ getCartFromSession (runCartOps [CartOp.add "a" "x" 2])
    ∧ 1 ≤ (⟨"x", 2, 1⟩ : CartItem).quantity :=
  ⟨by decide, cart_quantity_invariant [CartOp.add "a" "x" 2] "a"
    ⟨"x", 2, 1⟩ (by decide)⟩

/-- Claim C3. -- `viewCart` reads the cart and returns the empty-state indicator
when there are no entries; otherwise it returns one display string per item
computed from `price * quantity`, plus a grand total equal to the sum over
all items of `price * quantity`, rounded to 2 decimal places. -/
theorem viewCart_spec (st : Option Cart) :
    (getCartFromSession st = [] → viewCart st = .empty)
    ∧ (getCartFromSession st ≠ [] →
        viewCart st = .contents
          ((getCartFromSession st).map fun e => itemLine e.2)
          (toFixed2 (((getCartFromSession st).map
              fun e => e.2.price * (e.2.quantity : ℚ)).sum))) := by
  constructor
  · intro h
    simp [viewCart, h]
  · intro h
    have hlen : ¬(getCartFromSession st).length = 0 := by
      simpa [List.length_eq_zero] using h
    have hfold := foldl_add_eq_sum
      (fun e : String × CartItem => e.2.price * (e.2.quantity : ℚ))
      (getCartFromSession st) 0
    simp only [zero_add] at hfold
    simp [viewCart, hlen, hfold]

theorem viewCart_spec_witness :
    getCartFromSession (some [("a", (⟨"x", 2, 3⟩ : CartItem))]) ≠ []
    ∧ viewCart (some [("a", (⟨"x", 2, 3⟩ : CartItem))])
        = .contents ([("a", (⟨"x", 2, 3⟩ : CartItem))].map fun e => itemLine e.2)
          (toFixed2 (([("a", (⟨"x", 2, 3⟩ : CartItem))].map
              fun e => e.2.price * (e.2.quantity : ℚ)).sum)) :=
  ⟨by decide, (viewCart_spec _).2 (by decide)⟩

/-- Claim C4. -- `processOrder` on a non-empty cart reports a confirmation count
equal to the sum of quantities across all items and removes the `cartItems`
key (the same clearing as `clearCart`, so a subsequent read sees an empty
cart); on an empty cart it reports `No items in cart` and changes nothing.
On the cart `{A: {price:10, qty:2}, B: {price:5, qty:1}}` it reports
`3 item(s) ordered` and empties the cart. -/
theorem processOrder_spec :
    (∀ st : Option Cart, getCartFromSession st ≠ [] →
        processOrder st
          = ("Order processed successfully! "
              ++ toString (((getCartFromSession st).map fun e => e.2.quantity).sum)
              ++ " item(s) ordered.", none)
        ∧ (processOrder st).2 = (clearCart st).2
        ∧ viewCart (processOrder st).2 = .empty)
    ∧ (∀ st : Option Cart, getCartFromSession st = [] →
        processOrder st = ("No items in cart", st))
    ∧ processOrder (some [("A", ⟨"A", 10, 2⟩), ("B", ⟨"B", 5, 1⟩)])
        = ("Order processed successfully! 3 item(s) ordered.", none) := by
  refine ⟨fun st h => ?_, fun st h => ?_, ?_⟩
  · have hlen : (getCartFromSession st).length > 0 :=
      List.length_pos.mpr h
    have hfold := foldl_add_eq_sum
      (fun e : String × CartItem => e.2.quantity) (getCartFromSession st) 0
    simp only [Nat.zero_add] at hfold
    refine ⟨?_, ?_, ?_⟩
    · simp [processOrder, hlen, hfold, clearCartFromSession]
    · have hlen' : ¬(getCartFromSession st).length = 0 := by omega
      simp [processOrder, clearCart, hlen, hlen', clearCartFromSession]
    · simp [processOrder, hlen, clearCartFromSession, viewCart]
  · simp [processOrder, h]
  · decide

theorem processOrder_spec_witness :
    getCartFromSession (some [("A", (⟨"A", 10, 2⟩ : CartItem))]) ≠ []
    ∧ viewCart (processOrder (some [("A", (⟨"A", 10, 2⟩ : CartItem))])).2
        = .empty :=
  ⟨by decide, (processOrder_spec.1 _ (by decide)).2.2⟩

/-- Claim C5. -- `clearCart` on an empty cart reports `No items to clear` and
leaves the session store untouched; on a non-empty cart it removes the
`cartItems` key entirely (the result is `none`, not an empty mapping), so a
subsequent `viewCart` reports empty. -/
theorem clearCart_spec (st : Option Cart) :
    (getCartFromSession st = [] → clearCart st = ("No items to clear", st))
    ∧ (getCartFromSession st ≠ [] →
        clearCart st = ("Cart has been cleared!", none)
        ∧ (clearCart st).2 ≠ some ([] : Cart)
        ∧ viewCart (clearCart st).2 = .empty) := by
  constructor
  · intro h
    simp [clearCart, h]
  · intro h
    have hlen : ¬(getCartFromSession st).length = 0 := by
      simpa [List.length_eq_zero] using h
    refine ⟨?_, ?_, ?_⟩ <;>
      simp [clearCart, hlen, clearCartFromSession, viewCart]

theorem clearCart_spec_witness :
    getCartFromSession (some [("a", (⟨"x", 2, 1⟩ : CartItem))]) ≠ []
    ∧ clearCart (some [("a", (⟨"x", 2, 1⟩ : CartItem))])
        = ("Cart has been cleared!", none) :=
  ⟨by decide, ((clearCart_spec _).2 (by decide)).1⟩

theorem jsSplit_ne_nil (c : Char) (s : List Char) : jsSplit c s ≠ [] := by
  induction s with
  | nil => simp [jsSplit]
  | cons x xs ih =>
      by_cases h : x = c
      · simp [jsSplit, h]
      · cases hs : jsSplit c xs with
        | nil => exact absurd hs ih
        | cons p ps => simp [jsSplit, h, hs]

theorem jsSplit_of_not_mem (c : Char) (b : List Char) (h : c ∉ b) :
    jsSplit c b = [b] := by
  induction b with
  | nil => rfl
  | cons x xs ih =>
      have hx : ¬x = c := fun hh => h (hh ▸ List.mem_cons_self _ _)
      have hxs : c ∉ xs := fun hm => h (List.mem_cons_of_mem _ hm)
      simp [jsSplit, hx, ih hxs]

theorem jsSplit_eq_single (c : Char) (s b : List Char)
    (h : jsSplit c s = [b]) : s = b ∧ c ∉ b := by
  induction s generalizing b with
  | nil =>
      simp [jsSplit] at h
      simp [h]
  | cons x xs ih =>
      by_cases hx : x = c
      · simp only [jsSplit, if_pos hx, List.cons.injEq] at h
        exact absurd h.2 (jsSplit_ne_nil c xs)
      · cases hs : jsSplit c xs with
        | nil => exact absurd hs (jsSplit_ne_nil c xs)
        | cons p ps =>
            simp only [jsSplit, if_neg hx, hs, List.cons.injEq] at h
            obtain ⟨h1, h2⟩ := h
            subst h2
            subst h1
            obtain ⟨hxp, hp⟩ := ih p hs
            subst hxp
            refine ⟨rfl, ?_⟩
            intro hm
            rcases List.mem_cons.mp hm with hc | hc
            · exact hx hc.symm
            · exact hp hc

theorem jsSplit_append (c : Char) (a b : List Char) (ha : c ∉ a)
    (hb : c ∉ b) : jsSplit c (a ++ c :: b) = [a, b] := by
  induction a with
  | nil => simp [jsSplit, jsSplit_of_not_mem c b hb]
  | cons x a' ih =>
      have hx : ¬x = c := fun hh => ha (hh ▸ List.mem_cons_self _ _)
      have ha' : c ∉ a' := fun hm => ha (List.mem_cons_of_mem _ hm)
      simp [jsSplit, hx, ih ha']

theorem jsSplit_eq_pair (c : Char) (s a b : List Char) :
    jsSplit c s = [a, b] ↔ s = a ++ c :: b ∧ c ∉ a ∧ c ∉ b := by
  constructor
  · intro h
    induction s generalizing a with
    | nil => simp [jsSplit] at h
    | cons x xs ih =>
        by_cases hx : x = c
        · simp only [jsSplit, if_pos hx, List.cons.injEq] at h
          obtain ⟨h1, h2⟩ := h
          obtain ⟨hxb, hbb⟩ := jsSplit_eq_single c xs b h2
          subst hxb
          exact ⟨by simp [← h1, hx], by simp [← h1], hbb⟩
        · cases hs : jsSplit c xs with
          | nil => exact absurd hs (jsSplit_ne_nil c xs)
          | cons p ps =>
              simp only [jsSplit, if_neg hx, hs, List.cons.injEq] at h
              obtain ⟨h1, h2⟩ := h
              subst h2
              obtain ⟨hxs, hpa, hbb⟩ := ih p hs
              subst hxs
              refine ⟨by simp [← h1], ?_, hbb⟩
              rw [← h1]
              intro hm
              rcases List.mem_cons.mp hm with hc | hc
              · exact hx hc.symm
              · exact hpa hc
  · rintro ⟨rfl, ha, hb⟩
    exact jsSplit_append c a b ha hb

theorem newsletterEmailAccept_iff (s : List Char) :
    newsletterEmailAccept s = true
      ↔ ∃ a b : List Char, s = a ++ '@' :: b ∧ '@' ∉ a ∧ '@' ∉ b
          ∧ a ≠ [] ∧ b ≠ [] := by
  constructor
  · intro h
    by_cases h1 : s = []
    · simp [newsletterEmailAccept, h1] at h
    by_cases h2 : '@' ∈ s
    swap
    · simp [newsletterEmailAccept, h1, h2] at h
    have h3 : ¬((jsSplit '@' s).length ≠ 2 ∨ (jsSplit '@' s).getD 0 [] = []
        ∨ (jsSplit '@' s).getD 1 [] = []) := by
      intro hc
      simp [newsletterEmailAccept, h1, h2, hc] at h
      simp only [List.getD, List.get?_eq_getElem?] at hc
      tauto
    push_neg at h3
    obtain ⟨hlen, ha0, hb0⟩ := h3
    obtain ⟨a, b, hab⟩ := List.length_eq_two.mp hlen
    rw [hab] at ha0 hb0
    simp only [List.getD_cons_zero, List.getD_cons_succ] at ha0 hb0
    obtain ⟨hs, hna, hnb⟩ := (jsSplit_eq_pair '@' s a b).mp hab
    exact ⟨a, b, hs, hna, hnb, ha0, hb0⟩
  · rintro ⟨a, b, rfl, hna, hnb, ha, hb⟩
    have hsplit : jsSplit '@' (a ++ '@' :: b) = [a, b] :=
      jsSplit_append '@' a b hna hnb
    unfold newsletterEmailAccept
    rw [if_neg (by simp), if_neg (by simp), hsplit, if_neg (by simp [ha, hb])]

/-- Claim C6. -- For every input string the email validation accepts iff the
string contains exactly one `@` with non-empty text on both sides; it
rejects `foo`, `foo@`, `@bar` and accepts `a@b`; and the newsletter and
feedback forms validate identically. -/
theorem email_validation_spec :
    (∀ s : List Char,
        newsletterEmailAccept s = true
          ↔ ∃ a b : List Char, s = a ++ '@' :: b ∧ '@' ∉ a ∧ '@' ∉ b
              ∧ a ≠ [] ∧ b ≠ [])
    ∧ (∀ s : List Char, feedbackEmailAccept s = newsletterEmailAccept s)
    ∧ newsletterEmailAccept "foo".toList = false
    ∧ newsletterEmailAccept "foo@".toList = false
    ∧ newsletterEmailAccept "@bar".toList = false
    ∧ newsletterEmailAccept "a@b".toList = true := by
  refine ⟨newsletterEmailAccept_iff, fun s => rfl, ?_, ?_, ?_, ?_⟩ <;> decide

theorem email_validation_spec_witness :
    newsletterEmailAccept "x@y".toList = true :=
  (email_validation_spec.1 "x@y".toList).mpr
    ⟨['x'], ['y'], by decide, by decide, by decide, by decide, by decide⟩

/-- Claim C7 -- (amended). On every feedback-form input with at least one failing
validation rule, exactly one user-facing message is raised — that of the
first failing rule in the source's fixed order (name presence, email
presence, email `@` check, email shape check, message presence) — the
submission is aborted and the stored profile record is unchanged. -/
theorem feedback_validation_first_failure
    (nm email phone message : List Char) (ts : String)
    (st : Option CustomerProfile) (m : String)
    (hm : firstFailingMsg (nm, email, message) = some m) :
    feedbackSubmit nm email phone message ts st = (m, st) := by
  by_cases v1 : nm = []
  · simp [firstFailingMsg, feedbackRules, v1] at hm
    simp [feedbackSubmit, v1, ← hm]
  · by_cases v2 : email = []
    · simp [firstFailingMsg, feedbackRules, v1, v2] at hm
      simp [feedbackSubmit, v1, v2, ← hm]
    · by_cases v3 : '@' ∉ email
      · simp [firstFailingMsg, feedbackRules, v1, v2, v3] at hm
        simp [feedbackSubmit, v1, v2, v3, ← hm]
      · by_cases v4 : ¬(jsSplit '@' email).length = 2
            ∨ (jsSplit '@' email)[0]?.getD [] = []
            ∨ (jsSplit '@' email)[1]?.getD [] = []
        · simp [firstFailingMsg, feedbackRules, v1, v2, v3, v4] at hm
          simp [feedbackSubmit, v1, v2, v3, v4, ← hm]
        · by_cases v5 : message = []
          · simp [firstFailingMsg, feedbackRules, v1, v2, v3, v4, v5] at hm
            simp [feedbackSubmit, v1, v2, v3, v4, v5, ← hm]
          · simp [firstFailingMsg, feedbackRules, v1, v2, v3, v4, v5] at hm

theorem feedback_validation_first_failure_witness :
    firstFailingMsg (([] : List Char), ([] : List Char), ([] : List Char))
        = some "Please enter your name."
    ∧ feedbackSubmit [] [] [] [] "t" none = ("Please enter your name.", none) :=
  ⟨by decide,
    feedback_validation_first_failure [] [] [] [] "t" none
      "Please enter your name." (by decide)⟩

/-- Claim C7 counterexample. -- The claim as stated requires every presence check
to precede every shape check. On name `"x"`, email `"foo"`, empty message,
both the message-presence rule and the email-shape rules fail; under any
presence-before-shape priority the raised message would be the
message-presence message, but the code raises the `@`-shape message. -/
theorem feedback_presence_before_shape_false :
    feedbackSubmit ['x'] ['f', 'o', 'o'] [] [] "t" none
        = ("Please include a \"@\" in the email address.", none)
    ∧ ([] : List Char) = []
    ∧ "Please include a \"@\" in the email address."
        ≠ "Please enter your issue/order information." :=
  ⟨by decide, rfl, by decide⟩

theorem feedbackSubmit_success (nm email phone message : List Char)
    (ts : String) (st : Option CustomerProfile) (hn : nm ≠ [])
    (he : feedbackEmailAccept email = true) (hm : message ≠ []) :
    feedbackSubmit nm email phone message ts st
      = ("Thank you for your message, " ++ String.mk nm ++
           "! We will get back to you soon.",
         some ⟨nm, email, phone, message, ts⟩) := by
  have h1 : email ≠ [] := by
    intro h
    simp [feedbackEmailAccept, h] at he
  have h2 : '@' ∈ email := by
    by_contra h
    simp [feedbackEmailAccept, h1, h] at he
  have h3 : ¬(¬(jsSplit '@' email).length = 2
      ∨ (jsSplit '@' email)[0]?.getD [] = []
      ∨ (jsSplit '@' email)[1]?.getD [] = []) := by
    intro h
    simp [feedbackEmailAccept, h1, h2] at he
    tauto
  simp [feedbackSubmit, hn, h1, h2, h3, hm, saveCustomerToLocal]

/-- Claim C8. -- `saveCustomerToLocal` overwrites the single durable profile
record unconditionally (no merge, last write wins); hence after any two
submissions of which the second passes validation, the stored record is
exactly the second submission's record: its `lastMessage` and its
`name`/`email`/`phone`. -/
theorem saveProfile_last_write_wins :
    (∀ (r : CustomerProfile) (st : Option CustomerProfile),
        saveCustomerToLocal r st = some r)
    ∧ (∀ (n1 e1 p1 m1 : List Char) (t1 : String)
         (n2 e2 p2 m2 : List Char) (t2 : String)
         (st : Option CustomerProfile),
        n2 ≠ [] → feedbackEmailAccept e2 = true → m2 ≠ [] →
          (feedbackSubmit n2 e2 p2 m2 t2
              (feedbackSubmit n1 e1 p1 m1 t1 st).2).2
            = some ⟨n2, e2, p2, m2, t2⟩) := by
  refine ⟨fun r st => rfl, ?_⟩
  intro n1 e1 p1 m1 t1 n2 e2 p2 m2 t2 st hn he hm
  rw [feedbackSubmit_success n2 e2 p2 m2 t2 _ hn he hm]

theorem saveProfile_last_write_wins_witness :
    (['b'] : List Char) ≠ []
    ∧ feedbackEmailAccept ['c', '@', 'd'] = true
    ∧ (['y'] : List Char) ≠ []
    ∧ (feedbackSubmit ['b'] ['c', '@', 'd'] [] ['y'] "t2"
        (feedbackSubmit ['a'] ['a', '@', 'b'] [] ['x'] "t1" none).2).2
      = some ⟨['b'], ['c', '@', 'd'], [], ['y'], "t2"⟩ :=
  ⟨by decide, by decide, by decide,
    saveProfile_last_write_wins.2 ['a'] ['a', '@', 'b'] [] ['x'] "t1"
      ['b'] ['c', '@', 'd'] [] ['y'] "t2" none
      (by decide) (by decide) (by decide)⟩

theorem probe_fst (w : Bool) (d : List (String × String)) :
    (isStorageAvailable w d).1 = w := by
  cases w <;> simp [isStorageAvailable, rawSetItem, rawRemoveItem]

theorem adapterInv_init (w1 w2 : Bool) :
    AdapterInv (initAdapter w1 w2)
      ∧ (initAdapter w1 w2).useSession = w1
      ∧ (initAdapter w1 w2).useLocal = w2 := by
  refine ⟨⟨?_, ?_⟩, ?_, ?_⟩ <;> simp [initAdapter, probe_fst]

theorem adStep_ok (st : AdapterState) (op : AdOp) (hInv : AdapterInv st) :
    ∃ v st', adStep st op = .ok (v, st')
      ∧ AdapterInv st'
      ∧ st'.useSession = st.useSession ∧ st'.useLocal = st.useLocal
      ∧ (st.useSession = false → st'.realSession = st.realSession)
      ∧ (st.useLocal = false → st'.realLocal = st.realLocal) := by
  obtain ⟨h1, h2⟩ := hInv
  cases op with
  | setS k v =>
      by_cases hu : st.useSession = true
      · have hw : st.sessionWorks = true := by rw [← h1]; exact hu
        refine ⟨none, { st with realSession := kvSet st.realSession k v },
          ?_, ⟨?_, ?_⟩, ?_, ?_, ?_, ?_⟩ <;>
          simp [adStep, setSessionItem, hu, hw, rawSetItem, Except.map, h1, h2]
      · have hu' : st.useSession = false := by simpa using hu
        have hw' : st.sessionWorks = false := by rw [← h1]; exact hu'
        refine ⟨none, { st with fbSession := kvSet st.fbSession k v },
          ?_, ⟨?_, ?_⟩, ?_, ?_, ?_, ?_⟩ <;>
          simp [adStep, setSessionItem, hu', hw', h1, h2]
  | getS k =>
      by_cases hu : st.useSession = true
      · have hw : st.sessionWorks = true := by rw [← h1]; exact hu
        refine ⟨kvGet st.realSession k, st, ?_, ⟨?_, ?_⟩, ?_, ?_, ?_, ?_⟩ <;>
          simp [adStep, getSessionItem, hu, hw, rawGetItem, Except.map, h1, h2]
      · have hu' : st.useSession = false := by simpa using hu
        have hw' : st.sessionWorks = false := by rw [← h1]; exact hu'
        refine ⟨kvGet st.fbSession k, st, ?_, ⟨?_, ?_⟩, ?_, ?_, ?_, ?_⟩ <;>
          simp [adStep, getSessionItem, hu', hw', h1, h2]
  | remS k =>
      by_cases hu : st.useSession = true
      · have hw : st.sessionWorks = true := by rw [← h1]; exact hu
        refine ⟨none, { st with realSession := kvRemove st.realSession k },
          ?_, ⟨?_, ?_⟩, ?_, ?_, ?_, ?_⟩ <;>
          simp [adStep, removeSessionItem, hu, hw, rawRemoveItem, Except.map, h1, h2]
      · have hu' : st.useSession = false := by simpa using hu
        have hw' : st.sessionWorks = false := by rw [← h1]; exact hu'
        refine ⟨none, { st with fbSession := kvRemove st.fbSession k },
          ?_, ⟨?_, ?_⟩, ?_, ?_, ?_, ?_⟩ <;>
          simp [adStep, removeSessionItem, hu', hw', h1, h2]
  | clrS =>
      by_cases hu : st.useSession = true
      · have hw : st.sessionWorks = true := by rw [← h1]; exact hu
        refine ⟨none, { st with realSession := [] },
          ?_, ⟨?_, ?_⟩, ?_, ?_, ?_, ?_⟩ <;>
          simp [adStep, clearSession, hu, hw, rawClear, Except.map, h1, h2]
      · have hu' : st.useSession = false := by simpa using hu
        have hw' : st.sessionWorks = false := by rw [← h1]; exact hu'
        refine ⟨none, { st with fbSession := [] },
          ?_, ⟨?_, ?_⟩, ?_, ?_, ?_, ?_⟩ <;>
          simp [adStep, clearSession, hu', hw', h1, h2]
  | setL k v =>
      by_cases hu : st.useLocal = true
      · have hw : st.localWorks = true := by rw [← h2]; exact hu
        refine ⟨none, { st with realLocal := kvSet st.realLocal k v },
          ?_, ⟨?_, ?_⟩, ?_, ?_, ?_, ?_⟩ <;>
          simp [adStep, setLocalItem, hu, hw, rawSetItem, Except.map, h1, h2]
      · have hu' : st.useLocal = false := by simpa using hu
        have hw' : st.localWorks = false := by rw [← h2]; exact hu'
        refine ⟨none, { st with fbLocal := kvSet st.fbLocal k v },
          ?_, ⟨?_, ?_⟩, ?_, ?_, ?_, ?_⟩ <;>
          simp [adStep, setLocalItem, hu', hw', h1, h2]
  | getL k =>
      by_cases hu : st.useLocal = true
      · have hw : st.localWorks = true := by rw [← h2]; exact hu
        refine ⟨kvGet st.realLocal k, st, ?_, ⟨?_, ?_⟩, ?_, ?_, ?_, ?_⟩ <;>
          simp [adStep, getLocalItem, hu, hw, rawGetItem, Except.map, h1, h2]
      · have hu' : st.useLocal = false := by simpa using hu
        have hw' : st.localWorks = false := by rw [← h2]; exact hu'
        refine ⟨kvGet st.fbLocal k, st, ?_, ⟨?_, ?_⟩, ?_, ?_, ?_, ?_⟩ <;>
          simp [adStep, getLocalItem, hu', hw', h1, h2]
  | remL k =>
      by_cases hu : st.useLocal = true
      · have hw : st.localWorks = true := by rw [← h2]; exact hu
        refine ⟨none, { st with realLocal := kvRemove st.realLocal k },
          ?_, ⟨?_, ?_⟩, ?_, ?_, ?_, ?_⟩ <;>
          simp [adStep, removeLocalItem, hu, hw, rawRemoveItem, Except.map, h1, h2]
      · have hu' : st.useLocal = false := by simpa using hu
        have hw' : st.localWorks = false := by rw [← h2]; exact hu'
        refine ⟨none, { st with fbLocal := kvRemove st.fbLocal k },
          ?_, ⟨?_, ?_⟩, ?_, ?_, ?_, ?_⟩ <;>
          simp [adStep, removeLocalItem, hu', hw', h1, h2]

theorem runAdapter_ok (ops : List AdOp) :
    ∀ st : AdapterState, AdapterInv st →
      ∃ st', runAdapter st ops = .ok st'
        ∧ st'.useSession = st.useSession ∧ st'.useLocal = st.useLocal
        ∧ (st.useSession = false → st'.realSession = st.realSession)
        ∧ (st.useLocal = false → st'.realLocal = st.realLocal) := by
  induction ops with
  | nil =>
      intro st _
      exact ⟨st, rfl, rfl, rfl, fun _ => rfl, fun _ => rfl⟩
  | cons op rest ih =>
      intro st hInv
      obtain ⟨v, st1, hstep, hInv1, hu1, hl1, hrs1, hrl1⟩ := adStep_ok st op hInv
      obtain ⟨st', hrun, hu2, hl2, hrs2, hrl2⟩ := ih st1 hInv1
      refine ⟨st', ?_, hu2.trans hu1, hl2.trans hl1, ?_, ?_⟩
      · simp [runAdapter, hstep, hrun]
      · intro hf
        exact (hrs2 (hu1.trans hf)).trans (hrs1 hf)
      · intro hf
        exact (hrl2 (hl1.trans hf)).trans (hrl1 hf)

/-- Claim C1. -- For every pair of environment capabilities, every key/value and
every sequence of adapter calls from startup: no call throws (the whole run
returns `.ok`); each scope's availability verdict is the startup probe's and
never changes across the run (decided exactly once, no re-probe); and once a
scope is unavailable its real store is never touched again — all of that
scope's operations land on the in-memory fallback for the rest of the
process lifetime. -/
theorem storage_adapter_spec (w1 w2 : Bool) (ops : List AdOp) :
    ∃ st', runAdapter (initAdapter w1 w2) ops = .ok st'
      ∧ st'.useSession = (isStorageAvailable w1 []).1
      ∧ st'.useLocal = (isStorageAvailable w2 []).1
      ∧ st'.useSession = w1 ∧ st'.useLocal = w2
      ∧ (w1 = false → st'.realSession = (initAdapter w1 w2).realSession)
      ∧ (w2 = false → st'.realLocal = (initAdapter w1 w2).realLocal) := by
  obtain ⟨hInv, hs, hl⟩ := adapterInv_init w1 w2
  obtain ⟨st', hrun, hu, hl', hrs, hrl⟩ :=
    runAdapter_ok ops (initAdapter w1 w2) hInv
  refine ⟨st', hrun, ?_, ?_, hu.trans hs, hl'.trans hl, ?_, ?_⟩
  · rw [hu, hs, probe_fst]
  · rw [hl', hl, probe_fst]
  · intro hf
    exact hrs (by rw [hs]; exact hf)
  · intro hf
    exact hrl (by rw [hl]; exact hf)

theorem storage_adapter_spec_witness :
    ∃ st', runAdapter (initAdapter false false)
        [AdOp.setS "cartItems" "x", AdOp.getS "cartItems",
         AdOp.remS "cartItems", AdOp.clrS, AdOp.setL "customerData" "y",
         AdOp.getL "customerData", AdOp.remL "customerData"] = .ok st'
      ∧ st'.useSession = (isStorageAvailable false []).1
      ∧ st'.useLocal = (isStorageAvailable false []).1
      ∧ st'.useSession = false ∧ st'.useLocal = false
      ∧ (false = false → st'.realSession = (initAdapter false false).realSession)
      ∧ (false = false → st'.realLocal = (initAdapter false false).realLocal) :=
  storage_adapter_spec false false
    [AdOp.setS "cartItems" "x", AdOp.getS "cartItems",
     AdOp.remS "cartItems", AdOp.clrS, AdOp.setL "customerData" "y",
     AdOp.getL "customerData", AdOp.remL "customerData"]
